import Mathlib

/-
Verification of the Estim8 estimation and progress rules engine.

The definitions below are a shallow embedding of the calculator methods of
`Project` in src/models.py (get_phase_ratio, calculate_reference_interval,
calculate_discipline_reference_intervals, calculate_status_based_progress,
get_hour_distribution, get_total_hours, get_hourly_rate,
calculate_estimated_cost), of the ReferenceRatio / DisciplineReferenceRatio /
HistoricalRate rows they read, and of the batch job in
src/update_project_progress.py.

Modelling conventions:
- Python floats are modelled by exact rationals (IEEE-754 rounding is out of
  scope; every computation here is a product or sum of short decimals).
- Nullable columns are modelled by Option; Python string truthiness
  (None and the empty string are falsy) is modelled by strTruthy.
- The database session is a Db value: lists of rows plus a queryFails flag
  modelling the ReferenceRatio / DisciplineReferenceRatio queries raising an
  exception (those queries are the ones wrapped in try/except in the source).
- Code that can raise returns Except PyErr; an except-handler in the source
  becomes a match on that value.
-/

set_option linter.unusedVariables false

namespace Estim8

/-- Python exception kinds relevant to the embedded code. -/
inductive PyErr where
  | valueError
  | typeError
  | dbError
deriving DecidableEq

/-- A low/avg/high ratio triple, the shape returned by get_phase_ratio. -/
structure PhaseRatio where
  low : ℚ
  avg : ℚ
  high : ℚ
deriving DecidableEq

/-- A low/avg/high hour interval. -/
structure Interval where
  low : ℚ
  avg : ℚ
  high : ℚ
deriving DecidableEq

/-- The dict returned by calculate_reference_interval. -/
structure RefInterval where
  low : ℚ
  avg : ℚ
  high : ℚ
  tic_not_set : Bool
deriving DecidableEq

/-- A ReferenceRatio row (src/models.py lines 756-776). -/
structure ReferenceRatio where
  id : Nat
  phase : String
  low_ratio : ℚ
  avg_ratio : ℚ
  high_ratio : ℚ
  is_active : Bool
deriving DecidableEq

/-- A DisciplineReferenceRatio row (src/models.py lines 783-796). -/
structure DisciplineReferenceRatio where
  reference_ratio_id : Nat
  discipline : String
  low_ratio : ℚ
  avg_ratio : ℚ
  high_ratio : ℚ
deriving DecidableEq

/-- A HistoricalRate row (src/models.py lines 671-677); effective_date is a
totally ordered timestamp. -/
structure HistoricalRate where
  rate : ℚ
  effective_date : Nat
deriving DecidableEq

/-- The database state visible to the calculators.  queryFails = true models
the ratio queries raising an exception (caught and logged in the source). -/
structure Db where
  referenceRatios : List ReferenceRatio
  disciplineRatios : List DisciplineReferenceRatio
  historicalRates : List HistoricalRate
  queryFails : Bool
deriving DecidableEq

/-- The subset of a Project row read by the calculators
(src/models.py lines 112-198). -/
structure Project where
  project_tic : Option String
  phase : Option String
  status : Option String
  estimate_submitted : Bool
  progress_percentage : ℚ
  process_sid_hours : Option ℚ
  civil_structure_hours : Option ℚ
  piping_hours : Option ℚ
  mechanical_hours : Option ℚ
  electrical_hours : Option ℚ
  instrumentation_control_hours : Option ℚ
  digitalization_hours : Option ℚ
  engineering_management_hours : Option ℚ
  environmental_hours : Option ℚ
  tools_admin_hours : Option ℚ
  construction_hours : Option ℚ
deriving DecidableEq

/-- Python truthiness of a nullable string: None and the empty string are
falsy, every other string is truthy. -/
def strTruthy : Option String → Bool
  | none => false
  | some s => !(s == "")

/-- Value of a list of ASCII digit characters read in base 10. -/
def digitsToNat (l : List Char) : Nat :=
  l.foldl (fun a c => 10 * a + (c.toNat - 48)) 0

/-- ASCII whitespace stripped by Python float() before parsing. -/
def isPyWhitespace (c : Char) : Bool :=
  c == ' ' || c == '\t' || c == '\n' || c == '\r' || c == '\x0b' || c == '\x0c'

/-- Strip leading and trailing whitespace from a character list. -/
def stripWs (cs : List Char) : List Char :=
  ((cs.dropWhile isPyWhitespace).reverse.dropWhile isPyWhitespace).reverse

/-- 10 raised to an integer power, as an exact rational. -/
def qpow10 (e : ℤ) : ℚ :=
  if 0 ≤ e then (10 : ℚ) ^ e.toNat else 1 / (10 : ℚ) ^ (-e).toNat

/-- Exponent part of a float literal: optional sign then a nonempty run of
digits, with nothing after it. -/
def parseExp (t : List Char) : Option ℤ :=
  let t2 := if t.head? = some '+' ∨ t.head? = some '-' then t.tail else t
  let sgn : ℤ := if t.head? = some '-' then -1 else 1
  if t2.isEmpty || !t2.all Char.isDigit then none
  else some (sgn * (digitsToNat t2 : ℤ))

/-- Fractional digits of a float literal: the digits after a leading decimal
point of the post-integer remainder, if any. -/
def fracPart (r1 : List Char) : List Char :=
  if r1.head? = some '.' then r1.tail.takeWhile Char.isDigit else []

/-- What remains of a float literal after integer part, decimal point and
fractional digits; must be empty or an exponent. -/
def expPart (r1 : List Char) : List Char :=
  if r1.head? = some '.' then r1.tail.dropWhile Char.isDigit else r1

/-- Exact value of an integer digit list and a fractional digit list. -/
def mantVal (ip fp : List Char) : ℚ :=
  (digitsToNat ip : ℚ) + (digitsToNat fp : ℚ) / (10 : ℚ) ^ fp.length

/-- Unsigned mantissa and optional exponent of a Python float literal:
digits, an optional decimal point with further digits (at least one digit in
total), and an optional e/E exponent.  none models ValueError. -/
def pyFloatUnsigned (cs : List Char) : Option ℚ :=
  if (cs.takeWhile Char.isDigit).isEmpty
      && (fracPart (cs.dropWhile Char.isDigit)).isEmpty then none
  else if (expPart (cs.dropWhile Char.isDigit)).isEmpty then
    some (mantVal (cs.takeWhile Char.isDigit) (fracPart (cs.dropWhile Char.isDigit)))
  else if (expPart (cs.dropWhile Char.isDigit)).head? = some 'e'
      ∨ (expPart (cs.dropWhile Char.isDigit)).head? = some 'E' then
    (parseExp (expPart (cs.dropWhile Char.isDigit)).tail).map
      (fun e => mantVal (cs.takeWhile Char.isDigit)
        (fracPart (cs.dropWhile Char.isDigit)) * qpow10 e)
  else none

/-- Signed float literal body: optional leading sign, then the unsigned part. -/
def pyFloatCore (cs : List Char) : Option ℚ :=
  if cs.head? = some '+' then pyFloatUnsigned cs.tail
  else if cs.head? = some '-' then (pyFloatUnsigned cs.tail).map Neg.neg
  else pyFloatUnsigned cs

/-- Modelled Python float(s) on a string argument: strip surrounding
whitespace, then parse an optionally signed decimal literal with an optional
exponent, exactly.  Returns none where float raises ValueError.  The literal
forms inf, nan and underscore digit separators are not modelled (no string in
this development, nor any TIC value the source sanitises, uses them), and
digit/whitespace classification is ASCII. -/
def pyFloat? (s : String) : Option ℚ :=
  pyFloatCore (stripWs s.toList)

/-- The TIC sanitiser used by calculate_discipline_reference_intervals and
calculate_reference_hours (src/models.py lines 284 and 439): keep every
character that is a digit or a decimal point, drop the rest. -/
def sanitizeTic (s : String) : String :=
  String.mk (s.toList.filter (fun c => c.isDigit || c == '.'))

/-- The string `self.project_tic or '0'`: the TIC itself when truthy, "0"
otherwise. -/
def ticOrZero (tic : Option String) : String :=
  match tic with
  | some s => if s == "" then "0" else s
  | none => "0"

/-- The inner TIC parse of calculate_discipline_reference_intervals
(src/models.py lines 283-287): float of the sanitised TIC, with the empty or
null TIC replaced by the string "0" first, and ValueError recovered to 0. -/
def sanitizedTicValue (tic : Option String) : ℚ :=
  match pyFloat? (sanitizeTic (ticOrZero tic)) with
  | some v => v
  | none => 0

/-- First row of `ReferenceRatio.query.filter_by(phase=p.phase, is_active=True)`
(src/models.py lines 227-230 and 323-326). -/
def firstActiveRefRatio (db : Db) (phase : Option String) : Option ReferenceRatio :=
  db.referenceRatios.find? (fun r => (some r.phase == phase) && r.is_active)

/-- All rows of `DisciplineReferenceRatio.query.filter_by(reference_ratio_id=i)`
(src/models.py lines 330-333). -/
def discRatioRows (db : Db) (refId : Nat) : List DisciplineReferenceRatio :=
  db.disciplineRatios.filter (fun d => d.reference_ratio_id == refId)

/-- The built-in phase ratio table of get_phase_ratio
(src/models.py lines 243-251). -/
def defaultPhaseRatios : String → Option PhaseRatio
  | "Identify" => some ⟨0.002, 0.003, 0.005⟩
  | "Evaluate" => some ⟨0.008, 0.01, 0.015⟩
  | "Define" => some ⟨0.02, 0.03, 0.05⟩
  | "Design" => some ⟨0.10, 0.17, 0.23⟩
  | "Build" => some ⟨0.04, 0.05, 0.07⟩
  | "Commissioning" => some ⟨0.03, 0.04, 0.06⟩
  | "Asset Management" => some ⟨0.01, 0.015, 0.025⟩
  | _ => none

/-- `default_ratios.get(self.phase, default)` (src/models.py line 255): the
built-in table entry for the phase, or the Define defaults 2/3/5 percent. -/
def lookupDefaultPhaseRatio (phase : Option String) : PhaseRatio :=
  match phase with
  | some s => (defaultPhaseRatios s).getD ⟨0.02, 0.03, 0.05⟩
  | none => ⟨0.02, 0.03, 0.05⟩

/-- Project.get_phase_ratio (src/models.py lines 219-259): prefer the active
stored ReferenceRatio row for the phase; a database exception is caught and
logged, leaving ratio unset; fall back to the built-in table, and to the
Define defaults for any other phase. -/
def get_phase_ratio (p : Project) (db : Db) : PhaseRatio :=
  let fromDb : Option PhaseRatio :=
    if db.queryFails then none
    else match firstActiveRefRatio db p.phase with
      | some r => some ⟨r.low_ratio, r.avg_ratio, r.high_ratio⟩
      | none => none
  match fromDb with
  | some r => r
  | none => lookupDefaultPhaseRatio p.phase

/-- The argument of float() in calculate_reference_interval (src/models.py
line 265): `self.project_tic or 1`, so the untouched TIC string when it is
truthy and the number 1 otherwise; none models float raising ValueError. -/
def rawTicValue (tic : Option String) : Option ℚ :=
  match tic with
  | some s => if s == "" then some 1 else pyFloat? s
  | none => some 1

/-- Project.calculate_reference_interval (src/models.py lines 261-274):
float of the raw TIC (default 1), times the phase ratios, with ValueError and
TypeError recovered to the all-zero interval with tic_not_set true.
Except.error would model an uncaught exception escaping to the caller. -/
def calculate_reference_interval (p : Project) (db : Db) : Except PyErr RefInterval :=
  match rawTicValue p.project_tic with
  | none => Except.ok ⟨0, 0, 0, true⟩
  | some t =>
    let r := get_phase_ratio p db
    Except.ok ⟨t * r.low, t * r.avg, t * r.high, !(strTruthy p.project_tic)⟩

/-- The eleven canonical disciplines (src/models.py lines 303-315). -/
def disciplines : List String :=
  ["Process & SID", "Civil & Structure", "Piping", "Mechanical", "Electrical",
   "Instrumentation & Control", "Digitalization", "Engineering Management",
   "Environmental", "Tools Admin", "Construction"]

/-- The phase-level reference hours of
calculate_discipline_reference_intervals (src/models.py lines 290-294):
sanitised TIC times the phase ratios. -/
def referenceHours (p : Project) (db : Db) : Interval :=
  let r := get_phase_ratio p db
  let t := sanitizedTicValue p.project_tic
  ⟨t * r.low, t * r.avg, t * r.high⟩

/-- The discipline_ratios dict built at src/models.py lines 318-348: populated
from DisciplineReferenceRatio rows of the active phase ratio only when the
sanitised TIC is positive and the phase is truthy; a database exception is
caught and logged, leaving the dict empty.  Later rows overwrite earlier ones
with the same discipline key, hence the reversed find. -/
def disciplineRatioFor (p : Project) (db : Db) (d : String) : Option DisciplineReferenceRatio :=
  if 0 < sanitizedTicValue p.project_tic ∧ strTruthy p.phase then
    if db.queryFails then none
    else match firstActiveRefRatio db p.phase with
      | some rr => (discRatioRows db rr.id).reverse.find? (fun dr => dr.discipline == d)
      | none => none
  else none

/-- The result dict of calculate_discipline_reference_intervals: one interval
per canonical discipline, in order, plus the tic_not_set flag. -/
structure DiscIntervals where
  intervals : List (String × Interval)
  tic_not_set : Bool
deriving DecidableEq

/-- Project.calculate_discipline_reference_intervals (src/models.py lines
276-371): phase reference hours compounded per discipline with the stored
discipline ratio when one exists, passed through unchanged otherwise. -/
def calculate_discipline_reference_intervals (p : Project) (db : Db) : DiscIntervals :=
  let rh := referenceHours p db
  let ivs := disciplines.map (fun d =>
    match disciplineRatioFor p db d with
    | some dr => (d, (⟨rh.low * dr.low_ratio, rh.avg * dr.avg_ratio, rh.high * dr.high_ratio⟩ : Interval))
    | none => (d, rh))
  ⟨ivs, !(strTruthy p.project_tic)⟩

/-- The except branch of calculate_discipline_reference_intervals
(src/models.py lines 367-371): on an unexpected exception the method returns
a dict holding only tic_not_set = True, with no interval entries. -/
def disciplineIntervalsOnError : DiscIntervals :=
  ⟨[], true⟩

/-- Project.calculate_status_based_progress (src/models.py lines 395-412). -/
def calculate_status_based_progress (p : Project) : ℚ :=
  if p.status = some "Completed" then 100
  else if p.status = some "Submitted" then 75
  else if p.status = some "Approved" then 50
  else if p.status = some "Pending Validation" then 30
  else if p.status = some "Draft" ∧ p.estimate_submitted then 25
  else if p.status = some "Draft" then 10
  else if p.status = some "Rejected" then 15
  else p.progress_percentage

/-- Project.get_hour_distribution (src/models.py lines 414-428): the eleven
discipline-hour fields keyed by the canonical display names, in order. -/
def get_hour_distribution (p : Project) : List (String × Option ℚ) :=
  [("Process & SID", p.process_sid_hours),
   ("Civil & Structure", p.civil_structure_hours),
   ("Piping", p.piping_hours),
   ("Mechanical", p.mechanical_hours),
   ("Electrical", p.electrical_hours),
   ("Instrumentation & Control", p.instrumentation_control_hours),
   ("Digitalization", p.digitalization_hours),
   ("Engineering Management", p.engineering_management_hours),
   ("Environmental", p.environmental_hours),
   ("Tools Admin", p.tools_admin_hours),
   ("Construction", p.construction_hours)]

/-- One addition step of a Python sum over nullable floats: a None operand
raises TypeError, and a raised error propagates. -/
def pySumStep (acc : Except PyErr ℚ) (x : Option ℚ) : Except PyErr ℚ :=
  match acc, x with
  | Except.error e, _ => Except.error e
  | Except.ok a, some v => Except.ok (a + v)
  | Except.ok _, none => Except.error PyErr.typeError

/-- Python sum over nullable floats: fold from 0, raising TypeError at the
first None operand. -/
def pySum (l : List (Option ℚ)) : Except PyErr ℚ :=
  l.foldl pySumStep (Except.ok 0)

/-- Project.get_total_hours (src/models.py lines 430-432):
sum of the hour-distribution values. -/
def get_total_hours (p : Project) : Except PyErr ℚ :=
  pySum ((get_hour_distribution p).map Prod.snd)

/-- One comparison step when scanning for the most recently dated rate row. -/
def latestStep (acc : Option HistoricalRate) (r : HistoricalRate) :
    Option HistoricalRate :=
  match acc with
  | none => some r
  | some b => if b.effective_date < r.effective_date then some r else some b

/-- `HistoricalRate.query.order_by(HistoricalRate.effective_date.desc()).first()`
(src/models.py line 204): the row with the latest effective_date, earliest
such row first on ties. -/
def latestRate (l : List HistoricalRate) : Option HistoricalRate :=
  l.foldl latestStep none

/-- Project.get_hourly_rate (src/models.py lines 202-205): rate of the most
recently dated HistoricalRate row, 500 when none exists. -/
def get_hourly_rate (db : Db) : ℚ :=
  match latestRate db.historicalRates with
  | some r => r.rate
  | none => 500

/-- The eleven hour fields in the order summed by calculate_estimated_cost
(src/models.py lines 209-216), which is also the order of
get_hour_distribution. -/
def hourFields (p : Project) : List (Option ℚ) :=
  [p.process_sid_hours, p.civil_structure_hours, p.piping_hours,
   p.mechanical_hours, p.electrical_hours, p.instrumentation_control_hours,
   p.digitalization_hours, p.engineering_management_hours,
   p.environmental_hours, p.tools_admin_hours, p.construction_hours]

/-- Project.calculate_estimated_cost (src/models.py lines 207-217): sum of the
eleven hour fields times the current hourly rate; a None field makes the sum
raise TypeError, which this method does not catch. -/
def calculate_estimated_cost (p : Project) (db : Db) : Except PyErr ℚ :=
  (pySum (hourFields p)).map (fun t => t * get_hourly_rate db)

/-- One iteration of the loop in update_all_project_progress
(src/update_project_progress.py lines 16-24): recompute the status-based
progress and write it back exactly when it differs from the stored value. -/
def updateOneProjectProgress (p : Project) : Project :=
  let newProgress := calculate_status_based_progress p
  if p.progress_percentage = newProgress then p
  else { p with progress_percentage := newProgress }

/-- update_all_project_progress (src/update_project_progress.py lines 9-31):
apply the status-based calculator to every project; all changed rows are
committed together after the loop. -/
def update_all_project_progress (projects : List Project) : List Project :=
  projects.map updateOneProjectProgress

/-- The updated_count of update_all_project_progress: the number of projects
whose stored progress differed from the recomputed one. -/
def updatedCount (projects : List Project) : Nat :=
  (projects.filter
    (fun p => !(p.progress_percentage == calculate_status_based_progress p))).length

/-- The discipline override that applies to discipline d under the active
ReferenceRatio of the phase, independent of the TIC guard: the last stored
DisciplineReferenceRatio row for d scoped to that ReferenceRatio. -/
def activeDisciplineOverride (db : Db) (phase : Option String) (d : String) :
    Option DisciplineReferenceRatio :=
  match firstActiveRefRatio db phase with
  | some rr => (discRatioRows db rr.id).reverse.find? (fun dr => dr.discipline == d)
  | none => none

/-- Storing a ReferenceRatio row: the new row is the one the active-ratio
query returns for its phase. -/
def storeReferenceRatio (db : Db) (r : ReferenceRatio) : Db :=
  { db with referenceRatios := r :: db.referenceRatios }

/- Concrete fixtures used by witnesses and counterexamples. -/

/-- A database with no stored rows and a working session. -/
def emptyDb : Db :=
  ⟨[], [], [], false⟩

/-- A database holding an active Design override whose session raises on the
ratio queries. -/
def failingDb : Db :=
  ⟨[⟨1, "Design", 0.5, 0.6, 0.7, true⟩], [], [], true⟩

/-- A project with every optional text field unset and all hours zero. -/
def baseProject : Project :=
  { project_tic := none, phase := none, status := none,
    estimate_submitted := false, progress_percentage := 0,
    process_sid_hours := some 0, civil_structure_hours := some 0,
    piping_hours := some 0, mechanical_hours := some 0,
    electrical_hours := some 0, instrumentation_control_hours := some 0,
    digitalization_hours := some 0, engineering_management_hours := some 0,
    environmental_hours := some 0, tools_admin_hours := some 0,
    construction_hours := some 0 }

/-- A Design-phase project whose TIC carries currency formatting. -/
def ticFormattedDesignProject : Project :=
  { baseProject with project_tic := some "1,234.56 DH", phase := some "Design" }

/-- A Design-phase project with a null TIC. -/
def ticNoneDesignProject : Project :=
  { baseProject with phase := some "Design" }

/-- A Design-phase project with a plain numeric TIC string. -/
def ticPlainDesignProject : Project :=
  { baseProject with project_tic := some "1000", phase := some "Design" }

/-- A completed project whose stored progress is 0.05 away from the
recomputed 100. -/
def completedNearlyDoneProject : Project :=
  { baseProject with status := some "Completed", progress_percentage := 99.95 }

/-- A Define-phase project. -/
def definePhaseProject : Project :=
  { baseProject with phase := some "Define" }

/-- A stored Define override row. -/
def storedDefineRatio : ReferenceRatio :=
  ⟨7, "Define", 0.25, 0.5, 0.75, true⟩

/-- A database holding only the stored Define override, working session. -/
def defineOverrideDb : Db :=
  ⟨[storedDefineRatio], [], [], false⟩

/-- A stored Design override row used for the round-trip witness. -/
def designOverrideRow : ReferenceRatio :=
  ⟨3, "Design", 0.11, 0.12, 0.13, true⟩

/-- A project with one null hour field and the rest zero. -/
def nullHoursProject : Project :=
  { baseProject with process_sid_hours := none }

/- Parsing helper lemmas. -/

/-- A nonempty all-digit character list parses to its base-10 value. -/
lemma pyFloatUnsigned_allDigits (l : List Char) (hne : l ≠ [])
    (hd : ∀ c ∈ l, c.isDigit = true) :
    pyFloatUnsigned l = some ((digitsToNat l : ℕ) : ℚ) := by
  have htake : l.takeWhile Char.isDigit = l := List.takeWhile_eq_self_iff.mpr hd
  have hdrop : l.dropWhile Char.isDigit = [] := List.dropWhile_eq_nil_iff.mpr hd
  simp only [pyFloatUnsigned, htake, hdrop]
  simp [hne, digitsToNat, expPart, fracPart, mantVal]

/-- A string that strips to a nonempty all-digit list parses with float() to
its base-10 value. -/
lemma pyFloat_allDigits (s : String) (hne : stripWs s.toList ≠ [])
    (hd : ∀ c ∈ stripWs s.toList, c.isDigit = true) :
    pyFloat? s = some ((digitsToNat (stripWs s.toList) : ℕ) : ℚ) := by
  rcases hcs : stripWs s.toList with _ | ⟨c, t⟩
  · exact absurd hcs hne
  · have hcdig : c.isDigit = true := by
      have := hd c
      rw [hcs] at this
      exact this (List.mem_cons_self c t)
    have hplus : c ≠ '+' := by rintro rfl; revert hcdig; decide
    have hminus : c ≠ '-' := by rintro rfl; revert hcdig; decide
    rw [pyFloat?, pyFloatCore, hcs]
    rw [if_neg (by simp [hplus]), if_neg (by simp [hminus])]
    rw [pyFloatUnsigned_allDigits (c :: t) (by simp) (by rw [← hcs]; exact hd)]

/-- Powers of ten are nonnegative. -/
lemma qpow10_nonneg (e : ℤ) : 0 ≤ qpow10 e := by
  rw [qpow10]
  split
  · positivity
  · positivity

/-- The mantissa value of digit lists is nonnegative. -/
lemma mantVal_nonneg (ip fp : List Char) : 0 ≤ mantVal ip fp := by
  rw [mantVal]
  positivity

/-- A successful unsigned parse is nonnegative. -/
lemma pyFloatUnsigned_nonneg (cs : List Char) (v : ℚ)
    (h : pyFloatUnsigned cs = some v) : 0 ≤ v := by
  rw [pyFloatUnsigned] at h
  split at h
  · exact absurd h (by simp)
  · split at h
    · rw [Option.some.injEq] at h
      rw [← h]
      exact mantVal_nonneg _ _
    · split at h
      · rcases Option.map_eq_some'.mp h with ⟨e, -, he⟩
        rw [← he]
        exact mul_nonneg (mantVal_nonneg _ _) (qpow10_nonneg e)
      · exact absurd h (by simp)

/-- Every character of a sanitised TIC string is a digit or a dot. -/
lemma sanitizeTic_chars (s : String) :
    ∀ c ∈ (sanitizeTic s).toList, c.isDigit = true ∨ c = '.' := by
  intro c hc
  have hc2 : c ∈ s.toList.filter (fun c => c.isDigit || c == '.') := hc
  have := (List.mem_filter.mp hc2).2
  rcases Bool.or_eq_true_iff.mp this with h1 | h1
  · exact Or.inl h1
  · exact Or.inr (by simpa using h1)

/-- Dropping a prefix keeps only elements of the original list. -/
lemma mem_of_mem_dropWhile {p : Char → Bool} :
    ∀ (l : List Char) (c : Char), c ∈ l.dropWhile p → c ∈ l := by
  intro l
  induction l with
  | nil => intro c hc; simp at hc
  | cons a t ih =>
    intro c hc
    rw [List.dropWhile_cons] at hc
    by_cases hpa : p a = true
    · simp only [hpa, if_true] at hc
      exact List.mem_cons_of_mem a (ih c hc)
    · simp only [hpa, if_false] at hc
      exact hc

/-- Whitespace stripping keeps only characters of the original list. -/
lemma mem_of_mem_stripWs (cs : List Char) (c : Char) (hc : c ∈ stripWs cs) :
    c ∈ cs := by
  rw [stripWs, List.mem_reverse] at hc
  have h1 := mem_of_mem_dropWhile _ c hc
  rw [List.mem_reverse] at h1
  exact mem_of_mem_dropWhile _ c h1

/-- On character lists free of a leading sign, the signed and unsigned
parsers agree. -/
lemma pyFloatCore_no_sign (cs : List Char)
    (h : ∀ c ∈ cs, c.isDigit = true ∨ c = '.') :
    pyFloatCore cs = pyFloatUnsigned cs := by
  have hplus : cs.head? ≠ some '+' := by
    intro hh
    rcases cs with _ | ⟨c, t⟩
    · simp at hh
    · simp only [List.head?_cons, Option.some.injEq] at hh
      subst hh
      rcases h '+' (List.mem_cons_self _ _) with h1 | h1 <;> revert h1 <;> decide
  have hminus : cs.head? ≠ some '-' := by
    intro hh
    rcases cs with _ | ⟨c, t⟩
    · simp at hh
    · simp only [List.head?_cons, Option.some.injEq] at hh
      subst hh
      rcases h '-' (List.mem_cons_self _ _) with h1 | h1 <;> revert h1 <;> decide
  rw [pyFloatCore, if_neg hplus, if_neg hminus]

/-- A sanitised TIC never parses to a negative value. -/
lemma sanitizedTicValue_nonneg (tic : Option String) :
    0 ≤ sanitizedTicValue tic := by
  rw [sanitizedTicValue]
  rcases hv : pyFloat? (sanitizeTic (ticOrZero tic)) with _ | v
  · exact le_refl 0
  · rw [pyFloat?] at hv
    have hchars : ∀ c ∈ stripWs (sanitizeTic (ticOrZero tic)).toList,
        c.isDigit = true ∨ c = '.' :=
      fun c hc => sanitizeTic_chars _ c (mem_of_mem_stripWs _ c hc)
    rw [pyFloatCore_no_sign _ hchars] at hv
    exact pyFloatUnsigned_nonneg _ v hv

/-- The string "0" parses with float() to zero. -/
lemma pyFloat_zero : pyFloat? "0" = some ((0 : ℕ) : ℚ) := by
  have h1 := pyFloat_allDigits "0" (by decide) (by decide)
  have hs : stripWs "0".toList = ['0'] := by decide
  rw [hs] at h1
  have h2 : digitsToNat ['0'] = 0 := by decide
  rw [h2] at h1
  exact h1

/-- A null TIC sanitises and parses to zero. -/
lemma sanitizedTicValue_none : sanitizedTicValue none = 0 := by
  rw [sanitizedTicValue]
  have hz : sanitizeTic (ticOrZero none) = "0" := by decide
  rw [hz, pyFloat_zero]
  norm_num

/-- A fold of Python additions over non-null operands never raises. -/
lemma pySum_foldl_ok :
    ∀ (l : List (Option ℚ)) (a : ℚ), (∀ o ∈ l, o.isSome = true) →
      ∃ t, l.foldl pySumStep (Except.ok a) = Except.ok t := by
  intro l
  induction l with
  | nil => intro a h; exact ⟨a, rfl⟩
  | cons o t ih =>
    intro a h
    rcases Option.isSome_iff_exists.mp (h o (List.mem_cons_self o t)) with ⟨v, hov⟩
    rw [List.foldl_cons, hov]
    exact ih (a + v) (fun x hx => h x (List.mem_cons_of_mem o hx))

/-- Scanning a rate list from a seed row yields a row of maximal
effective_date among the seed and the list. -/
lemma latestRate_foldl_spec :
    ∀ (l : List HistoricalRate) (b : HistoricalRate),
      ∃ c, l.foldl latestStep (some b) = some c ∧ (c = b ∨ c ∈ l) ∧
        b.effective_date ≤ c.effective_date ∧
        ∀ q ∈ l, q.effective_date ≤ c.effective_date := by
  intro l
  induction l with
  | nil => intro b; exact ⟨b, rfl, Or.inl rfl, le_refl _, by simp⟩
  | cons r t ih =>
    intro b
    rw [List.foldl_cons]
    by_cases hlt : b.effective_date < r.effective_date
    · have hstep : latestStep (some b) r = some r := by simp [latestStep, hlt]
      rw [hstep]
      obtain ⟨c, hc, hmem, hble, hall⟩ := ih r
      refine ⟨c, hc, ?_, le_trans (le_of_lt hlt) hble, ?_⟩
      · rcases hmem with rfl | hm
        · exact Or.inr (List.mem_cons_self _ _)
        · exact Or.inr (List.mem_cons_of_mem _ hm)
      · intro q hq
        rcases List.mem_cons.mp hq with rfl | hm
        · exact hble
        · exact hall q hm
    · have hstep : latestStep (some b) r = some b := by simp [latestStep, hlt]
      rw [hstep]
      obtain ⟨c, hc, hmem, hble, hall⟩ := ih b
      refine ⟨c, hc, ?_, hble, ?_⟩
      · rcases hmem with rfl | hm
        · exact Or.inl rfl
        · exact Or.inr (List.mem_cons_of_mem _ hm)
      · intro q hq
        rcases List.mem_cons.mp hq with rfl | hm
        · exact le_trans (not_lt.mp hlt) hble
        · exact hall q hm

/-- The rate row the query returns is in the table and carries the maximal
effective_date. -/
lemma latestRate_spec (l : List HistoricalRate) (r : HistoricalRate)
    (h : latestRate l = some r) :
    r ∈ l ∧ ∀ q ∈ l, q.effective_date ≤ r.effective_date := by
  rcases l with _ | ⟨b, t⟩
  · exact absurd h (by simp [latestRate])
  · rw [latestRate, List.foldl_cons] at h
    have hh : latestStep none b = some b := rfl
    rw [hh] at h
    obtain ⟨c, hc, hmem, hble, hall⟩ := latestRate_foldl_spec t b
    rw [hc, Option.some.injEq] at h
    subst h
    constructor
    · rcases hmem with rfl | hm
      · exact List.mem_cons_self _ _
      · exact List.mem_cons_of_mem _ hm
    · intro q hq
      rcases List.mem_cons.mp hq with rfl | hm
      · exact hble
      · exact hall q hm

/- Theorems.  One theorem (plus witness or counterexample) per claim. -/

/-- C1, counterexample: against the claim, calculate_reference_interval does
not sanitise the TIC, so TIC="1,234.56 DH" with phase Design hits the
ValueError handler and yields the all-zero interval with tic_not_set=true
(low 0, not the claimed 123.456); and TIC=None is replaced by 1, not 0, so
the result is the Design ratios themselves with tic_not_set=true, not the
claimed all-zero interval. -/
theorem C1_counterexample :
    calculate_reference_interval ticFormattedDesignProject emptyDb
      = Except.ok ⟨0, 0, 0, true⟩ ∧
    (0 : ℚ) ≠ 123.456 ∧
    calculate_reference_interval ticNoneDesignProject emptyDb
      = Except.ok ⟨0.10, 0.17, 0.23, true⟩ ∧
    (0.10 : ℚ) ≠ 0 := by
  refine ⟨rfl, by norm_num, ?_, by norm_num⟩
  norm_num [calculate_reference_interval, rawTicValue, get_phase_ratio,
    firstActiveRefRatio, lookupDefaultPhaseRatio, defaultPhaseRatios,
    strTruthy, ticNoneDesignProject, emptyDb, baseProject]

/-- C1, amended: calculate_reference_interval applies Python float() to the
raw TIC string (no character stripping), substituting 1 when the TIC field is
empty or null.  On success it returns the parsed value times the phase
low/avg/high ratios with tic_not_set true exactly when the original field was
empty or null; when float() raises (as on "1,234.56 DH") it returns
{low:0, avg:0, high:0, tic_not_set:true}. -/
theorem C1_amended (p : Project) (db : Db) :
    (strTruthy p.project_tic = false →
      calculate_reference_interval p db =
        Except.ok ⟨(get_phase_ratio p db).low, (get_phase_ratio p db).avg,
                   (get_phase_ratio p db).high, true⟩) ∧
    (∀ s, p.project_tic = some s → s ≠ "" →
      (pyFloat? s = none →
        calculate_reference_interval p db = Except.ok ⟨0, 0, 0, true⟩) ∧
      (∀ t, pyFloat? s = some t →
        calculate_reference_interval p db =
          Except.ok ⟨t * (get_phase_ratio p db).low,
                     t * (get_phase_ratio p db).avg,
                     t * (get_phase_ratio p db).high, false⟩)) := by
  constructor
  · intro hfalsy
    rcases htic : p.project_tic with _ | s
    · simp [calculate_reference_interval, rawTicValue, htic, strTruthy]
    · rcases hs : decide (s = "") with _ | _
      · exfalso
        rw [htic] at hfalsy
        simp [strTruthy] at hfalsy
        simp_all
      · have hse : s = "" := of_decide_eq_true hs
        subst hse
        simp [calculate_reference_interval, rawTicValue, htic, strTruthy]
  · intro s htic hne
    constructor
    · intro hparse
      simp [calculate_reference_interval, rawTicValue, htic, hne, hparse]
    · intro t hparse
      simp [calculate_reference_interval, rawTicValue, strTruthy, htic, hne,
        hparse]

/-- C1 amended, witness: a set unparsable TIC concretely yields the safe
default interval. -/
theorem C1_amended_witness :
    calculate_reference_interval ticFormattedDesignProject emptyDb
      = Except.ok ⟨0, 0, 0, true⟩ :=
  ((C1_amended ticFormattedDesignProject emptyDb).2 "1,234.56 DH" rfl
    (by decide)).1 rfl

/-- C3: calculate_status_based_progress implements exactly the documented
status table, leaves the stored progress unchanged on any other status, and
stays within [0,100] whenever the stored value does. -/
theorem C3_status_progress (p : Project) :
    (p.status = some "Completed" → calculate_status_based_progress p = 100) ∧
    (p.status = some "Submitted" → calculate_status_based_progress p = 75) ∧
    (p.status = some "Approved" → calculate_status_based_progress p = 50) ∧
    (p.status = some "Pending Validation" →
      calculate_status_based_progress p = 30) ∧
    (p.status = some "Draft" → p.estimate_submitted = true →
      calculate_status_based_progress p = 25) ∧
    (p.status = some "Draft" → p.estimate_submitted = false →
      calculate_status_based_progress p = 10) ∧
    (p.status = some "Rejected" → calculate_status_based_progress p = 15) ∧
    (p.status ∉ ([some "Completed", some "Submitted", some "Approved",
        some "Pending Validation", some "Draft", some "Rejected"] :
        List (Option String)) →
      calculate_status_based_progress p = p.progress_percentage) ∧
    (0 ≤ p.progress_percentage → p.progress_percentage ≤ 100 →
      0 ≤ calculate_status_based_progress p ∧
      calculate_status_based_progress p ≤ 100) := by
  refine ⟨?_, ?_, ?_, ?_, ?_, ?_, ?_, ?_, ?_⟩
  · intro h; simp [calculate_status_based_progress, h]
  · intro h; simp [calculate_status_based_progress, h]
  · intro h; simp [calculate_status_based_progress, h]
  · intro h; simp [calculate_status_based_progress, h]
  · intro h hes; simp [calculate_status_based_progress, h, hes]
  · intro h hes; simp [calculate_status_based_progress, h, hes]
  · intro h; simp [calculate_status_based_progress, h]
  · intro h
    simp only [List.mem_cons, List.mem_singleton, not_or] at h
    obtain ⟨h1, h2, h3, h4, h5, h6, -⟩ := h
    simp [calculate_status_based_progress, h1, h2, h3, h4, h5, h6]
  · intro hlo hhi
    unfold calculate_status_based_progress
    split_ifs <;> first | exact ⟨hlo, hhi⟩ | constructor <;> norm_num

/-- C3, witness: a completed project concretely maps to 100 percent. -/
theorem C3_status_progress_witness :
    calculate_status_based_progress
      { baseProject with status := some "Completed" } = 100 :=
  (C3_status_progress { baseProject with status := some "Completed" }).1 rfl

/-- C8: with numeric hour fields, calculate_estimated_cost is the total
hours times the current hourly rate, where the rate is the one of the row
with the latest effective_date (maximal, regardless of insertion order) and
500 when no rate row exists. -/
theorem C8_estimated_cost (p : Project) (db : Db)
    (h : ∀ o ∈ hourFields p, o.isSome = true) :
    (∃ t, get_total_hours p = Except.ok t ∧
      calculate_estimated_cost p db = Except.ok (t * get_hourly_rate db)) ∧
    (db.historicalRates = [] → get_hourly_rate db = 500) ∧
    (∀ r, latestRate db.historicalRates = some r →
      get_hourly_rate db = r.rate ∧ r ∈ db.historicalRates ∧
      ∀ q ∈ db.historicalRates, q.effective_date ≤ r.effective_date) := by
  refine ⟨?_, ?_, ?_⟩
  · obtain ⟨t, ht⟩ := pySum_foldl_ok (hourFields p) 0 h
    refine ⟨t, ?_, ?_⟩
    · exact ht
    · rw [calculate_estimated_cost]
      have hps : pySum (hourFields p) = Except.ok t := ht
      rw [hps]
      rfl
  · intro hrate
    simp only [get_hourly_rate, hrate]
    rfl
  · intro r hr
    obtain ⟨hmem, hall⟩ := latestRate_spec _ r hr
    refine ⟨?_, hmem, hall⟩
    simp only [get_hourly_rate, hr]

/-- A database holding two rate rows where the most recently dated one is not
the most recently inserted one. -/
def ratesDb : Db :=
  ⟨[], [], [⟨600, 5⟩, ⟨700, 3⟩], false⟩

/-- C8, witness: a concrete project prices its total hours at the current
rate. -/
theorem C8_estimated_cost_witness :
    ∃ t, get_total_hours baseProject = Except.ok t ∧
      calculate_estimated_cost baseProject ratesDb
        = Except.ok (t * get_hourly_rate ratesDb) :=
  (C8_estimated_cost baseProject ratesDb (by decide)).1

/-- C9, counterexample: against the claim, the batch job writes whenever the
recomputed progress differs at all from the stored one — a completed project
stored at 99.95 percent differs from the recomputed 100 by only 0.05, within
the claimed 0.1 tolerance, yet its row is rewritten to 100. -/
theorem C9_counterexample :
    update_all_project_progress [completedNearlyDoneProject]
      = [{ completedNearlyDoneProject with progress_percentage := 100 }] ∧
    |completedNearlyDoneProject.progress_percentage - 100| ≤ 0.1 ∧
    completedNearlyDoneProject.progress_percentage ≠ 100 := by
  have hne : (99.95 : ℚ) ≠ 100 := by norm_num
  refine ⟨?_, ?_, ?_⟩
  · simp [update_all_project_progress, updateOneProjectProgress,
      calculate_status_based_progress, completedNearlyDoneProject, baseProject,
      hne]
  · show |(99.95 : ℚ) - 100| ≤ 0.1
    rw [abs_sub_comm]
    norm_num [abs_of_nonneg]
  · exact hne

/-- C2: get_phase_ratio is a total two-tier lookup under a working session —
a found active stored row wins with exactly its three ratios, otherwise the
built-in table answers for the seven canonical phases and the Define defaults
2/3/5 percent answer for every other phase name including None, so an unknown
phase resolves exactly like Define when neither has an active override. -/
theorem C2_get_phase_ratio (p : Project) (db : Db)
    (hdb : db.queryFails = false) :
    (∀ r, firstActiveRefRatio db p.phase = some r →
      get_phase_ratio p db = ⟨r.low_ratio, r.avg_ratio, r.high_ratio⟩) ∧
    (firstActiveRefRatio db p.phase = none →
      get_phase_ratio p db = lookupDefaultPhaseRatio p.phase) ∧
    lookupDefaultPhaseRatio (some "Identify") = ⟨0.002, 0.003, 0.005⟩ ∧
    lookupDefaultPhaseRatio (some "Evaluate") = ⟨0.008, 0.01, 0.015⟩ ∧
    lookupDefaultPhaseRatio (some "Define") = ⟨0.02, 0.03, 0.05⟩ ∧
    lookupDefaultPhaseRatio (some "Design") = ⟨0.10, 0.17, 0.23⟩ ∧
    lookupDefaultPhaseRatio (some "Build") = ⟨0.04, 0.05, 0.07⟩ ∧
    lookupDefaultPhaseRatio (some "Commissioning") = ⟨0.03, 0.04, 0.06⟩ ∧
    lookupDefaultPhaseRatio (some "Asset Management") = ⟨0.01, 0.015, 0.025⟩ ∧
    lookupDefaultPhaseRatio none = ⟨0.02, 0.03, 0.05⟩ ∧
    (∀ s, defaultPhaseRatios s = none →
      lookupDefaultPhaseRatio (some s) = ⟨0.02, 0.03, 0.05⟩) ∧
    (firstActiveRefRatio db (some "NoSuchPhase") = none →
     firstActiveRefRatio db (some "Define") = none →
      get_phase_ratio { p with phase := some "NoSuchPhase" } db
        = get_phase_ratio { p with phase := some "Define" } db) := by
  refine ⟨?_, ?_, rfl, rfl, rfl, rfl, rfl, rfl, rfl, rfl, ?_, ?_⟩
  · intro r hr
    simp [get_phase_ratio, hdb, hr]
  · intro hr
    simp [get_phase_ratio, hdb, hr]
  · intro s hs
    simp [lookupDefaultPhaseRatio, hs]
  · intro hns hdf
    simp [get_phase_ratio, hdb, hns, hdf]
    rfl

/-- C2, witness: with a stored active Define row present, the lookup returns
exactly the stored ratios. -/
theorem C2_get_phase_ratio_witness :
    get_phase_ratio definePhaseProject defineOverrideDb = ⟨0.25, 0.5, 0.75⟩ :=
  (C2_get_phase_ratio definePhaseProject defineOverrideDb rfl).1
    storedDefineRatio rfl

/-- C4: with a set phase and a working session, every discipline interval is
the phase reference hours compounded bound-wise with the stored discipline
ratio under the active phase ReferenceRatio when such a row exists, and the
phase reference hours unchanged (1:1 passthrough, not zero) otherwise. -/
theorem C4_discipline_compounding (p : Project) (db : Db)
    (hph : strTruthy p.phase = true) (hdb : db.queryFails = false) :
    (calculate_discipline_reference_intervals p db).intervals
      = disciplines.map (fun d =>
          match activeDisciplineOverride db p.phase d with
          | some dr =>
            (d, (⟨(referenceHours p db).low * dr.low_ratio,
                  (referenceHours p db).avg * dr.avg_ratio,
                  (referenceHours p db).high * dr.high_ratio⟩ : Interval))
          | none => (d, referenceHours p db)) ∧
    (calculate_discipline_reference_intervals p db).tic_not_set
      = !(strTruthy p.project_tic) := by
  refine ⟨?_, rfl⟩
  rw [calculate_discipline_reference_intervals]
  refine List.map_congr_left (fun d hd => ?_)
  by_cases htic : 0 < sanitizedTicValue p.project_tic
  · have heq : disciplineRatioFor p db d = activeDisciplineOverride db p.phase d := by
      rw [disciplineRatioFor, if_pos ⟨htic, hph⟩, activeDisciplineOverride, hdb]
      simp
    rw [heq]
  · have h0 : sanitizedTicValue p.project_tic = 0 :=
      le_antisymm (not_lt.mp htic) (sanitizedTicValue_nonneg _)
    have hnone : disciplineRatioFor p db d = none := by
      rw [disciplineRatioFor, if_neg]
      rintro ⟨h1, -⟩
      rw [h0] at h1
      exact lt_irrefl 0 h1
    have hrh : referenceHours p db = ⟨0, 0, 0⟩ := by
      rw [referenceHours]
      simp [h0]
    rw [hnone, hrh]
    rcases activeDisciplineOverride db p.phase d with _ | dr
    · rfl
    · simp

/-- A database holding an active Design row with one Piping discipline
override, working session. -/
def designDiscDb : Db :=
  ⟨[⟨1, "Design", 0.10, 0.17, 0.23, true⟩], [⟨1, "Piping", 0.5, 0.5, 0.5⟩],
   [], false⟩

/-- C4, witness: a concrete Design project with a stored Piping override
exhibits the compounding-or-passthrough shape. -/
theorem C4_discipline_compounding_witness :
    (calculate_discipline_reference_intervals ticPlainDesignProject designDiscDb).intervals
      = disciplines.map (fun d =>
          match activeDisciplineOverride designDiscDb ticPlainDesignProject.phase d with
          | some dr =>
            (d, (⟨(referenceHours ticPlainDesignProject designDiscDb).low * dr.low_ratio,
                  (referenceHours ticPlainDesignProject designDiscDb).avg * dr.avg_ratio,
                  (referenceHours ticPlainDesignProject designDiscDb).high * dr.high_ratio⟩ : Interval))
          | none => (d, referenceHours ticPlainDesignProject designDiscDb)) :=
  (C4_discipline_compounding ticPlainDesignProject designDiscDb (by decide) rfl).1

/-- C5, counterexample: against the claim, a database failure inside
calculate_reference_interval does not produce the zero shape — with a plain
TIC of 1000 and phase Design over a raising session it returns the built-in
Design ratios times 1000 with tic_not_set=false, not
{low:0, avg:0, high:0, tic_not_set:true}. -/
theorem C5_counterexample :
    calculate_reference_interval ticPlainDesignProject failingDb
      = Except.ok ⟨100, 170, 230, false⟩ ∧
    (⟨100, 170, 230, false⟩ : RefInterval) ≠ ⟨0, 0, 0, true⟩ := by
  constructor
  · have hs : stripWs "1000".toList = ['1', '0', '0', '0'] := by decide
    have hparse : pyFloat? "1000" = some ((1000 : ℕ) : ℚ) := by
      have h1 := pyFloat_allDigits "1000" (by decide) (by decide)
      rw [hs] at h1
      have h2 : digitsToNat ['1', '0', '0', '0'] = 1000 := by decide
      rw [h2] at h1
      exact h1
    have hne : ("1000" == "") = false := by decide
    norm_num [calculate_reference_interval, rawTicValue, hparse,
      get_phase_ratio, firstActiveRefRatio, lookupDefaultPhaseRatio,
      defaultPhaseRatios, strTruthy, ticPlainDesignProject, baseProject,
      failingDb, hne]
  · intro h
    have := congrArg RefInterval.tic_not_set h
    simp at this

/-- C5, amended: no calculator entry point propagates an exception, but each
degrades to its own default rather than a single zero shape —
calculate_reference_interval always returns a value (zeros with
tic_not_set=true exactly on parse failure), a raising session makes
get_phase_ratio fall back to the built-in table and makes every discipline
interval a 1:1 passthrough of the phase reference hours, and the top-level
handler of calculate_discipline_reference_intervals yields a dict holding
only tic_not_set=true, with no zero bounds. -/
theorem C5_amended (p : Project) (db : Db) :
    (∃ v, calculate_reference_interval p db = Except.ok v) ∧
    (db.queryFails = true →
      get_phase_ratio p db = lookupDefaultPhaseRatio p.phase ∧
      (calculate_discipline_reference_intervals p db).intervals
        = disciplines.map (fun d => (d, referenceHours p db))) ∧
    disciplineIntervalsOnError.intervals = [] ∧
    disciplineIntervalsOnError.tic_not_set = true := by
  refine ⟨?_, ?_, rfl, rfl⟩
  · rcases h : rawTicValue p.project_tic with _ | t
    · exact ⟨_, by rw [calculate_reference_interval, h]⟩
    · exact ⟨_, by rw [calculate_reference_interval, h]⟩
  · intro hq
    constructor
    · simp [get_phase_ratio, hq]
    · rw [calculate_discipline_reference_intervals]
      refine List.map_congr_left (fun d hd => ?_)
      have : disciplineRatioFor p db d = none := by
        rw [disciplineRatioFor]
        split
        · simp [hq]
        · rfl
      rw [this]

/-- C5 amended, witness: over a raising session the phase lookup concretely
falls back to the built-in Design entry. -/
theorem C5_amended_witness :
    get_phase_ratio ticPlainDesignProject failingDb
      = lookupDefaultPhaseRatio (some "Design") :=
  ((C5_amended ticPlainDesignProject failingDb).2.1 rfl).1

/-- C6, counterexample: against the claim, a null discipline-hour field is
not treated as 0 — get_total_hours on a project whose first hour field is
null raises TypeError instead of returning the sum 0 of the remaining
fields. -/
theorem C6_counterexample :
    get_total_hours nullHoursProject = Except.error PyErr.typeError ∧
    Except.error PyErr.typeError ≠ (Except.ok (0 : ℚ) : Except PyErr ℚ) := by
  refine ⟨rfl, ?_⟩
  intro h
  exact Except.noConfusion h

/-- C6, amended: whenever all eleven discipline-hour fields are non-null,
get_total_hours returns their arithmetic sum and equals the sum of the
hour-distribution values, and the distribution is keyed by exactly the eleven
canonical discipline display names in order; a null field instead makes the
Python sum raise TypeError (the schema prevents nulls via column defaults). -/
theorem C6_amended (p : Project) (h : ∀ o ∈ hourFields p, o.isSome = true) :
    get_total_hours p
      = Except.ok (((hourFields p).map (fun o => o.getD 0)).sum) ∧
    get_total_hours p = pySum ((get_hour_distribution p).map Prod.snd) ∧
    hourFields p = (get_hour_distribution p).map Prod.snd ∧
    (get_hour_distribution p).map Prod.fst = disciplines := by
  refine ⟨?_, rfl, rfl, rfl⟩
  obtain ⟨a1, e1⟩ := Option.isSome_iff_exists.mp
    (h p.process_sid_hours (by simp [hourFields]))
  obtain ⟨a2, e2⟩ := Option.isSome_iff_exists.mp
    (h p.civil_structure_hours (by simp [hourFields]))
  obtain ⟨a3, e3⟩ := Option.isSome_iff_exists.mp
    (h p.piping_hours (by simp [hourFields]))
  obtain ⟨a4, e4⟩ := Option.isSome_iff_exists.mp
    (h p.mechanical_hours (by simp [hourFields]))
  obtain ⟨a5, e5⟩ := Option.isSome_iff_exists.mp
    (h p.electrical_hours (by simp [hourFields]))
  obtain ⟨a6, e6⟩ := Option.isSome_iff_exists.mp
    (h p.instrumentation_control_hours (by simp [hourFields]))
  obtain ⟨a7, e7⟩ := Option.isSome_iff_exists.mp
    (h p.digitalization_hours (by simp [hourFields]))
  obtain ⟨a8, e8⟩ := Option.isSome_iff_exists.mp
    (h p.engineering_management_hours (by simp [hourFields]))
  obtain ⟨a9, e9⟩ := Option.isSome_iff_exists.mp
    (h p.environmental_hours (by simp [hourFields]))
  obtain ⟨a10, e10⟩ := Option.isSome_iff_exists.mp
    (h p.tools_admin_hours (by simp [hourFields]))
  obtain ⟨a11, e11⟩ := Option.isSome_iff_exists.mp
    (h p.construction_hours (by simp [hourFields]))
  simp only [get_total_hours, get_hour_distribution, pySum, pySumStep,
    hourFields, List.map_cons, List.map_nil, List.foldl_cons, List.foldl_nil,
    List.sum_cons, List.sum_nil, e1, e2, e3, e4, e5, e6, e7, e8, e9, e10, e11,
    Option.getD_some]
  exact congrArg Except.ok (by ring)

/-- C6 amended, witness: with all hour fields set, the total concretely
equals the arithmetic sum of the fields. -/
theorem C6_amended_witness :
    get_total_hours baseProject
      = Except.ok (((hourFields baseProject).map (fun o => o.getD 0)).sum) :=
  (C6_amended baseProject (by decide)).1

/-- C7: storing an active ReferenceRatio row for the project's phase makes
get_phase_ratio return exactly the stored low/avg/high ratios, not the
built-in defaults. -/
theorem C7_roundtrip (p : Project) (db : Db) (r : ReferenceRatio)
    (hph : p.phase = some r.phase) (hact : r.is_active = true)
    (hdb : db.queryFails = false) :
    get_phase_ratio p (storeReferenceRatio db r)
      = ⟨r.low_ratio, r.avg_ratio, r.high_ratio⟩ := by
  simp [get_phase_ratio, firstActiveRefRatio, storeReferenceRatio, hph, hact,
    hdb]

/-- C7, witness: a concrete stored Design row round-trips through the
lookup. -/
theorem C7_roundtrip_witness :
    get_phase_ratio ticNoneDesignProject (storeReferenceRatio emptyDb designOverrideRow)
      = ⟨designOverrideRow.low_ratio, designOverrideRow.avg_ratio,
         designOverrideRow.high_ratio⟩ :=
  C7_roundtrip ticNoneDesignProject emptyDb designOverrideRow rfl rfl rfl

/-- C9, amended: the batch job recomputes the status-based progress of every
project and writes it back exactly when it differs from the stored value
(with no tolerance), leaving every other field untouched, so after the run
every project's stored progress equals the calculator's output on its old
state; all the changed rows are committed together after the loop. -/
theorem C9_amended (projects : List Project) :
    (update_all_project_progress projects).map (fun p => p.progress_percentage)
      = projects.map calculate_status_based_progress ∧
    (update_all_project_progress projects).map (fun p => p.status)
      = projects.map (fun p => p.status) ∧
    (update_all_project_progress projects).length = projects.length := by
  refine ⟨?_, ?_, by simp [update_all_project_progress]⟩ <;>
  · rw [update_all_project_progress, List.map_map]
    refine List.map_congr_left (fun p hp => ?_)
    unfold updateOneProjectProgress
    by_cases h : p.progress_percentage = calculate_status_based_progress p <;>
      simp [h]

/-- C10: when the sanitised TIC parses to 0 or the phase is unset, stored
discipline override rows are never consulted — the result is unchanged under
any replacement of the stored DisciplineReferenceRatio rows, every discipline
receives the phase-level reference hours unchanged, and those are all zero
whenever the TIC parses to 0. -/
theorem C10_overrides_inert (p : Project) (db : Db)
    (drs : List DisciplineReferenceRatio)
    (h : sanitizedTicValue p.project_tic = 0 ∨ strTruthy p.phase = false) :
    calculate_discipline_reference_intervals p { db with disciplineRatios := drs }
      = calculate_discipline_reference_intervals p db ∧
    (calculate_discipline_reference_intervals p db).intervals
      = disciplines.map (fun d => (d, referenceHours p db)) ∧
    (sanitizedTicValue p.project_tic = 0 →
      referenceHours p db = ⟨0, 0, 0⟩) := by
  have hnone : ∀ (db2 : Db) (d : String), disciplineRatioFor p db2 d = none := by
    intro db2 d
    rw [disciplineRatioFor, if_neg]
    rintro ⟨h1, h2⟩
    rcases h with h0 | hf
    · rw [h0] at h1
      exact lt_irrefl 0 h1
    · rw [hf] at h2
      exact Bool.noConfusion h2
  refine ⟨?_, ?_, ?_⟩
  · rw [calculate_discipline_reference_intervals,
      calculate_discipline_reference_intervals]
    congr 1
    refine List.map_congr_left (fun d hd => ?_)
    rw [hnone _ d, hnone _ d]
    rfl
  · rw [calculate_discipline_reference_intervals]
    refine List.map_congr_left (fun d hd => ?_)
    rw [hnone _ d]
  · intro h0
    rw [referenceHours]
    simp [h0]

/-- C10, witness: replacing the stored discipline rows concretely leaves the
result of a null-TIC Design project unchanged. -/
theorem C10_overrides_inert_witness :
    calculate_discipline_reference_intervals ticNoneDesignProject
        { designDiscDb with disciplineRatios := [⟨1, "Electrical", 0.9, 0.9, 0.9⟩] }
      = calculate_discipline_reference_intervals ticNoneDesignProject designDiscDb :=
  (C10_overrides_inert ticNoneDesignProject designDiscDb
    [⟨1, "Electrical", 0.9, 0.9, 0.9⟩] (Or.inl sanitizedTicValue_none)).1

end Estim8
